import Mathlib

/-!
Verification development for the `lightgbm-rs` Booster layer
(`src/booster.rs`): a shallow embedding of the Rust wrapper around the
native LightGBM C API, together with theorems about its training loop,
parameter encoding, prediction shape, error behaviour and teardown.

The native engine is modelled as an oracle (`Engine`) supplying the
integer status code and output data of each native entry point; the
embedded Rust functions produce the list of native calls they issue
together with a `RunOutcome`: a normal return (`ok`), a typed error
return (`err`, the `Err` branch of the Rust `Result`), or a Rust panic
(`panicked`, from `unwrap` and arithmetic faults).
-/

namespace LightGBM

/-- A serde_json `Value`, restricted to the shapes the wrapper meets:
null, booleans, (i64-ranged) integers, strings, arrays and objects.
An `obj` field list stands for the entries of serde_json's map in its
canonical iteration order (serde_json's map is a BTreeMap, so iteration
is deterministic), keys distinct. -/
inductive JValue where
  | null : JValue
  | bool : Bool → JValue
  | int : Int → JValue
  | str : String → JValue
  | arr : List JValue → JValue
  | obj : List (String × JValue) → JValue

/-- Lowercase hexadecimal digit, as serde_json prints in `\u00XX` escapes. -/
def hexDigit (n : Nat) : Char :=
  if n < 10 then Char.ofNat (48 + n) else Char.ofNat (87 + n)

/-- serde_json's escaping of one character inside a JSON string:
quote and backslash get a backslash; the control characters 8,9,10,12,13
get their short escapes; other control characters get `\u00XX`;
everything else is passed through. -/
def escapeChar (c : Char) : String :=
  if c = Char.ofNat 34 then "\\\""
  else if c = Char.ofNat 92 then "\\\\"
  else if c = Char.ofNat 8 then "\\b"
  else if c = Char.ofNat 9 then "\\t"
  else if c = Char.ofNat 10 then "\\n"
  else if c = Char.ofNat 12 then "\\f"
  else if c = Char.ofNat 13 then "\\r"
  else if c.toNat < 32 then
    "\\u00" ++ String.mk [hexDigit (c.toNat / 16), hexDigit (c.toNat % 16)]
  else String.singleton c

/-- Concatenation of the escapes of each character. -/
def escapeChars : List Char → String
  | [] => ""
  | c :: cs => escapeChar c ++ escapeChars cs

/-- A JSON string literal as serde_json prints it: quoted and escaped. -/
def renderString (s : String) : String :=
  "\"" ++ escapeChars s.data ++ "\""

mutual

/-- Compact JSON serialization of a `Value`, i.e. what Rust's
`format!("\x7b\x7d", v)` prints for `v : serde_json::Value`
(`Display` for `Value` serializes it as JSON). -/
def renderValue : JValue → String
  | JValue.null => "null"
  | JValue.bool true => "true"
  | JValue.bool false => "false"
  | JValue.int n => toString n
  | JValue.str s => renderString s
  | JValue.arr xs => "[" ++ renderArr xs ++ "]"
  | JValue.obj fs => "\x7b" ++ renderObj fs ++ "\x7d"

/-- Comma-separated rendering of array elements. -/
def renderArr : List JValue → String
  | [] => ""
  | [x] => renderValue x
  | x :: y :: xs => renderValue x ++ "," ++ renderArr (y :: xs)

/-- Comma-separated rendering of object fields. -/
def renderObj : List (String × JValue) → String
  | [] => ""
  | [kv] => renderString kv.1 ++ ":" ++ renderValue kv.2
  | kv :: kw :: xs => renderString kv.1 ++ ":" ++ renderValue kv.2 ++ "," ++ renderObj (kw :: xs)

end

/-- `value["key"]` via serde_json's `Index<&str>`: the field's value when
`value` is an object containing the key, `Null` otherwise (no panic). -/
def jindex (v : JValue) (key : String) : JValue :=
  match v with
  | JValue.obj fields =>
    match fields.find? (fun kv => kv.1 == key) with
    | some kv => kv.2
    | none => JValue.null
  | _ => JValue.null

/-- serde_json's `as_i64`: `Some` exactly for integer numbers. -/
def asI64 : JValue → Option Int
  | JValue.int n => some n
  | _ => none

/-- serde_json's `is_null`. -/
def isNull : JValue → Bool
  | JValue.null => true
  | _ => false

/-- Whether the string contains a NUL byte, the condition under which
Rust's `CString::new` fails (and the wrapper's `unwrap` on it panics). -/
def hasNulByte (s : String) : Bool :=
  s.data.any (fun c => c == Char.ofNat 0)

/-- Rust's `Vec::join(" ")` on a list of strings. -/
def joinSpace : List String → String
  | [] => ""
  | [x] => x
  | x :: y :: xs => x ++ " " ++ joinSpace (y :: xs)

/-- Modelled from the spec: the error type of the wrapper crate (its
definition lives outside `src/booster.rs`): a `NativeCallFailure`
carrying the native engine's diagnostic text, produced by the
Call-Result Adapter for every failing native call, and an
`EncodingFailure` for argument-validation errors at the Parameter
Encoder boundary. -/
inductive LgbmError where
  | nativeCallFailure : String → LgbmError
  | encodingFailure : String → LgbmError
deriving DecidableEq

/-- How a run of an embedded Rust function ends: a normal return, a typed
`Err` return, or a Rust panic carrying the panic message. -/
inductive RunOutcome (α : Type) where
  | ok : α → RunOutcome α
  | err : LgbmError → RunOutcome α
  | panicked : String → RunOutcome α
deriving DecidableEq

/-- `true` exactly on the `panicked` outcome. -/
def RunOutcome.isPanicked {α : Type} : RunOutcome α → Bool
  | RunOutcome.panicked _ => true
  | _ => false

/-- The native entry points the Booster layer invokes. -/
inductive NativeCall where
  | create
  | update
  | predictForMat
  | getNumClasses
  | getNumFeature
  | getFeatureNames
  | featureImportance
  | saveModel
  | createFromModelfile
  | free
deriving DecidableEq

/-- Oracle for the native engine: the status code each entry point
returns (convention: 0 = success, nonzero = failure), the data it writes
into output parameters, and its process-wide last-error text. -/
structure Engine where
  createStatus : Int
  updateStatus : Nat → Int
  updateFinished : Nat → Bool
  getNumClassesStatus : Int
  numClasses : Int
  getNumFeatureStatus : Int
  numFeature : Int
  featureNamesStatus : Int
  featureNameBytes : Nat → List Char
  predictStatus : Int
  predictValue : Nat → Int
  saveStatus : Int
  createFromFileStatus : Int
  loadedNumIterations : Int
  freeStatus : Int
  lastError : String

/-- Modelled from the spec: the Call-Result Adapter (the `lgbm_call!`
macro, defined outside `src/booster.rs`): inspect the native status
code, 0 is success, nonzero fetches the engine's last error text and
yields a `NativeCallFailure`. -/
def lgbmCall (status : Int) (lastError : String) : Except LgbmError Unit :=
  if status = 0 then Except.ok () else Except.error (LgbmError.nativeCallFailure lastError)

/-- `Booster::train`, step 1: resolve the iteration count from the
configuration — 100 when `num_iterations` is null/absent, otherwise
`as_i64().unwrap()`, which panics on a non-integer value. -/
def resolveNumIterations (parameter : JValue) : Except String Int :=
  if isNull (jindex parameter "num_iterations") then Except.ok 100
  else
    match asI64 (jindex parameter "num_iterations") with
    | some n => Except.ok n
    | none => Except.error "called Option::unwrap on a None value"

/-- `Booster::train`, step 2: the parameter string. `as_object().unwrap()`
panics when the configuration is not an object; otherwise each entry is
rendered `key=value` with the value printed by serde_json's `Display`
(compact JSON), the pairs are joined with single spaces, and
`CString::new(..).unwrap()` panics when the result contains a NUL byte. -/
def encodeParams (parameter : JValue) : Except String String :=
  match parameter with
  | JValue.obj fields =>
    let s := joinSpace (fields.map (fun kv => kv.1 ++ "=" ++ renderValue kv.2))
    if hasNulByte s then Except.error "nul byte found in provided data"
    else Except.ok s
  | _ => Except.error "called Option::unwrap on a None value"

/-- The update loop of `Booster::train`: issue up to `k` further
`LGBM_BoosterUpdateOneIter` calls starting at call index `i`, stopping
early only when a call's status is nonzero (the `?` operator); the
`is_finished` flag the engine writes is never consulted. Returns the
calls issued and whether all of them succeeded. -/
def runUpdates (eng : Engine) : Nat → Nat → List NativeCall × Bool
  | 0, _ => ([], true)
  | k + 1, i =>
    if eng.updateStatus i = 0 then
      let r := runUpdates eng k (i + 1)
      (NativeCall.update :: r.1, r.2)
    else ([NativeCall.update], false)

/-- `Booster::train` (src/booster.rs lines 59–92): resolve the iteration
count, encode the parameters, issue one `LGBM_BoosterCreate` call, then
`for _ in 1..num_iterations` issue update calls; on any native failure
return `Err` at once — without issuing any `LGBM_BoosterFree` for the
already-created handle. Returns the native calls issued and the outcome. -/
def train (parameter : JValue) (eng : Engine) : List NativeCall × RunOutcome Unit :=
  match resolveNumIterations parameter with
  | Except.error p => ([], RunOutcome.panicked p)
  | Except.ok numIterations =>
    match encodeParams parameter with
    | Except.error p => ([], RunOutcome.panicked p)
    | Except.ok _ =>
      match lgbmCall eng.createStatus eng.lastError with
      | Except.error e => ([NativeCall.create], RunOutcome.err e)
      | Except.ok _ =>
        let r := runUpdates eng (numIterations - 1).toNat 0
        (NativeCall.create :: r.1,
          if r.2 then RunOutcome.ok ()
          else RunOutcome.err (LgbmError.nativeCallFailure eng.lastError))

/-- Number of calls to a given entry point in a trace. -/
def countCall (c : NativeCall) (trace : List NativeCall) : Nat :=
  trace.count c

/-- Two's-complement wrap of an integer into the `i32` range, the effect
of Rust's `as i32` cast (and of release-mode `i32` arithmetic). -/
def wrap32 (i : Int) : Int :=
  (i + 2 ^ 31) % 2 ^ 32 - 2 ^ 31

/-- Rust's `as usize` on an `i32` value (64-bit target): sign-extend and
reinterpret, i.e. reduce modulo `2^64` into a natural number. -/
def usizeOfI32 (i : Int) : Nat :=
  (i % 2 ^ 64).toNat

/-- `Booster::predict` (src/booster.rs lines 107–141), parametrised by
the input slice's length (only the length matters to the control flow).
`nrow = data.len() as i32 / ncol` panics when `ncol = 0` (division by
zero) or on the lone `i32` division overflow; otherwise it truncates
toward zero. Then one `LGBM_BoosterGetNumClasses` call, a result buffer
of `(nrow * num_class) as usize` doubles, and one
`LGBM_BoosterPredictForMat` call that fills the buffer in place; the
buffer is returned on success. -/
def predict (dataLen : Nat) (numFeatures : Int) (eng : Engine) :
    List NativeCall × RunOutcome (List Int) :=
  let ncol := numFeatures
  if ncol = 0 then ([], RunOutcome.panicked "attempt to divide by zero")
  else
    let lenI := wrap32 (dataLen : Int)
    if lenI = -(2 ^ 31) ∧ ncol = -1 then
      ([], RunOutcome.panicked "attempt to divide with overflow")
    else
      let nrow := Int.tdiv lenI ncol
      match lgbmCall eng.getNumClassesStatus eng.lastError with
      | Except.error e => ([NativeCall.getNumClasses], RunOutcome.err e)
      | Except.ok _ =>
        let bufLen := usizeOfI32 (wrap32 (nrow * eng.numClasses))
        match lgbmCall eng.predictStatus eng.lastError with
        | Except.error e =>
          ([NativeCall.getNumClasses, NativeCall.predictForMat], RunOutcome.err e)
        | Except.ok _ =>
          ([NativeCall.getNumClasses, NativeCall.predictForMat],
            RunOutcome.ok ((List.range bufLen).map eng.predictValue))

/-- `Booster::num_feature` (src/booster.rs lines 155–162): one
`LGBM_BoosterGetNumFeature` call. -/
def num_feature (eng : Engine) : List NativeCall × RunOutcome Int :=
  match lgbmCall eng.getNumFeatureStatus eng.lastError with
  | Except.error e => ([NativeCall.getNumFeature], RunOutcome.err e)
  | Except.ok _ => ([NativeCall.getNumFeature], RunOutcome.ok eng.numFeature)

/-- The text slot `feature_name` allocates per feature:
`CString::new(" ".repeat(32))`, i.e. 32 space characters followed by the
terminating NUL the `CString` adds. -/
def featureNameSlot : List Char :=
  List.replicate 32 (Char.ofNat 32) ++ [Char.ofNat 0]

/-- The native call writes `written` bytes at the start of a slot,
leaving the remainder of the slot unchanged (clipped at the slot's
capacity). -/
def fillSlot (written : List Char) (slot : List Char) : List Char :=
  (written ++ slot.drop written.length).take slot.length

/-- `CString::from_raw(..).into_string()`: the characters before the
first NUL become the owned string. -/
def cToString (l : List Char) : String :=
  String.mk (l.takeWhile (fun c => c ≠ Char.ofNat 0))

/-- `Booster::feature_name` (src/booster.rs lines 165–190): query
`num_feature` (one native call), allocate that many 32-character slots,
issue one `LGBM_BoosterGetFeatureNames` call that fills the slots in
place, and convert each slot into an owned string trimmed at the NUL
terminator. -/
def feature_name (eng : Engine) : List NativeCall × RunOutcome (List String) :=
  match lgbmCall eng.getNumFeatureStatus eng.lastError with
  | Except.error e => ([NativeCall.getNumFeature], RunOutcome.err e)
  | Except.ok _ =>
    let nf := eng.numFeature.toNat
    match lgbmCall eng.featureNamesStatus eng.lastError with
    | Except.error e =>
      ([NativeCall.getNumFeature, NativeCall.getFeatureNames], RunOutcome.err e)
    | Except.ok _ =>
      ([NativeCall.getNumFeature, NativeCall.getFeatureNames],
        RunOutcome.ok ((List.range nf).map
          (fun i => cToString (fillSlot (eng.featureNameBytes i) featureNameSlot))))

/-- `Booster::from_file` (src/booster.rs lines 22–33):
`CString::new(filename).unwrap()` panics on a NUL byte before any native
call; otherwise one `LGBM_BoosterCreateFromModelfile` call. -/
def from_file (filename : String) (eng : Engine) : List NativeCall × RunOutcome Unit :=
  if hasNulByte filename then
    ([], RunOutcome.panicked "nul byte found in provided data")
  else
    match lgbmCall eng.createFromFileStatus eng.lastError with
    | Except.error e => ([NativeCall.createFromModelfile], RunOutcome.err e)
    | Except.ok _ => ([NativeCall.createFromModelfile], RunOutcome.ok ())

/-- `Booster::save_file` (src/booster.rs lines 206–216):
`CString::new(filename).unwrap()` panics on a NUL byte before any native
call; otherwise one `LGBM_BoosterSaveModel` call. -/
def save_file (filename : String) (eng : Engine) : List NativeCall × RunOutcome Unit :=
  if hasNulByte filename then
    ([], RunOutcome.panicked "nul byte found in provided data")
  else
    match lgbmCall eng.saveStatus eng.lastError with
    | Except.error e => ([NativeCall.saveModel], RunOutcome.err e)
    | Except.ok _ => ([NativeCall.saveModel], RunOutcome.ok ())

/-- `impl Drop for Booster` (src/booster.rs lines 219–223): one
`LGBM_BoosterFree` call routed through the adapter, with `.unwrap()` on
its result — a nonzero status panics (an unrecoverable condition), it is
not logged and ignored. -/
def boosterDrop (eng : Engine) : List NativeCall × RunOutcome Unit :=
  match lgbmCall eng.freeStatus eng.lastError with
  | Except.error e =>
    ([NativeCall.free],
      match e with
      | LgbmError.nativeCallFailure msg =>
        RunOutcome.panicked ("called Result::unwrap on an Err value: " ++ msg)
      | LgbmError.encodingFailure msg =>
        RunOutcome.panicked ("called Result::unwrap on an Err value: " ++ msg))
  | Except.ok _ => ([NativeCall.free], RunOutcome.ok ())

/-- Replace only the engine's early-stop flags, leaving every status and
output unchanged. -/
def setUpdateFinished (eng : Engine) (f : Nat → Bool) : Engine :=
  { eng with updateFinished := f }

/-- `true` exactly when the computation panicked. -/
def exceptIsError {α : Type} : Except String α → Bool
  | Except.error _ => true
  | Except.ok _ => false

/-- The configurations on which `train` panics before any native call:
a non-integer `num_iterations`, a non-object parameter, or a NUL byte in
the encoded parameter text. -/
def invalidConfig (parameter : JValue) : Bool :=
  exceptIsError (resolveNumIterations parameter) || exceptIsError (encodeParams parameter)

/-- An engine on which every native call succeeds: a binary model with
two features named Column_0, Column_1. -/
def engOk : Engine where
  createStatus := 0
  updateStatus := fun _ => 0
  updateFinished := fun _ => false
  getNumClassesStatus := 0
  numClasses := 1
  getNumFeatureStatus := 0
  numFeature := 2
  featureNamesStatus := 0
  featureNameBytes := fun i => ("Column_" ++ toString i).data ++ [Char.ofNat 0]
  predictStatus := 0
  predictValue := fun _ => 0
  saveStatus := 0
  createFromFileStatus := 0
  loadedNumIterations := 1
  freeStatus := 0
  lastError := ""

/-- An engine whose create call succeeds but whose every update call
fails. -/
def engUpdateFail : Engine :=
  { engOk with updateStatus := fun _ => 1, lastError := "update failed" }

/-- An engine whose free call fails at teardown. -/
def engFreeFail : Engine :=
  { engOk with freeStatus := 1, lastError := "free failed" }

/-- A configuration with `num_iterations = 0`. -/
def zeroIterConfig : JValue :=
  JValue.obj [("num_iterations", JValue.int 0), ("objective", JValue.str "binary")]

/-- A configuration with `num_iterations = 2`. -/
def twoIterConfig : JValue :=
  JValue.obj [("num_iterations", JValue.int 2)]

/-- A configuration with `num_iterations = 3`. -/
def threeIterConfig : JValue :=
  JValue.obj [("num_iterations", JValue.int 3), ("objective", JValue.str "binary")]

/-- A configuration whose `num_iterations` is a string, not an integer. -/
def nonIntIterConfig : JValue :=
  JValue.obj [("num_iterations", JValue.str "ten")]

/-- A single-entry configuration with the text value `binary` for the
key `objective`. -/
def objectiveConfig : JValue :=
  JValue.obj [("objective", JValue.str "binary")]

-- When every update call succeeds, the loop issues exactly `k` update
-- calls and reports success.
theorem runUpdates_all_ok (eng : Engine) (hupd : ∀ i, eng.updateStatus i = 0) :
    ∀ (k i : Nat), runUpdates eng k i = (List.replicate k NativeCall.update, true) := by
  intro k
  induction k with
  | zero => intro i; rfl
  | succ n ih =>
    intro i
    simp only [runUpdates, hupd i, ih (i + 1), List.replicate_succ, if_true, ite_true]

-- The update loop never reads the `is_finished` flag: replacing the
-- engine's early-stop answers changes nothing.
theorem runUpdates_ignores_finished (eng : Engine) (f : Nat → Bool) :
    ∀ (k i : Nat), runUpdates (setUpdateFinished eng f) k i = runUpdates eng k i := by
  intro k
  induction k with
  | zero => intro i; rfl
  | succ n ih =>
    intro i
    have hus : (setUpdateFinished eng f).updateStatus = eng.updateStatus := rfl
    simp only [runUpdates, hus, ih (i + 1)]

-- `train` never reads the `is_finished` flag either.
theorem train_ignores_finished (parameter : JValue) (eng : Engine) (f : Nat → Bool) :
    train parameter (setUpdateFinished eng f) = train parameter eng := by
  unfold train
  cases resolveNumIterations parameter with
  | error p => rfl
  | ok n =>
    cases encodeParams parameter with
    | error p => rfl
    | ok s =>
      have hcs : (setUpdateFinished eng f).createStatus = eng.createStatus := rfl
      have hle : (setUpdateFinished eng f).lastError = eng.lastError := rfl
      rw [hcs, hle]
      cases lgbmCall eng.createStatus eng.lastError with
      | error e => rfl
      | ok u => simp only [runUpdates_ignores_finished eng f]

-- On an all-success engine, `train` reduces to a create call followed by
-- `(N - 1).toNat` update calls and a successful outcome.
theorem train_all_ok (parameter : JValue) (eng : Engine) (N : Int) (s : String)
    (hres : resolveNumIterations parameter = Except.ok N)
    (henc : encodeParams parameter = Except.ok s)
    (hcreate : eng.createStatus = 0)
    (hupd : ∀ i, eng.updateStatus i = 0) :
    train parameter eng =
      (NativeCall.create :: List.replicate (N - 1).toNat NativeCall.update,
        RunOutcome.ok ()) := by
  unfold train
  rw [hres, henc]
  simp only [lgbmCall, hcreate, ite_true, if_true, runUpdates_all_ok eng hupd]

/-- C1: the claim "train performs exactly N boosting rounds: one create
call followed by exactly N - 1 update calls" fails when the
configuration's `num_iterations` is 0 — the create call still happens,
so 1 round is performed, not 0 (and not N - 1 = -1 update calls). -/
theorem C1_counterexample :
    resolveNumIterations zeroIterConfig = Except.ok 0 ∧
    countCall NativeCall.create (train zeroIterConfig engOk).1 = 1 ∧
    countCall NativeCall.update (train zeroIterConfig engOk).1 = 0 ∧
    ¬((countCall NativeCall.create (train zeroIterConfig engOk).1 : Int) +
        (countCall NativeCall.update (train zeroIterConfig engOk).1 : Int) = 0) :=
  ⟨rfl, by decide, by decide, by decide⟩

/-- C1 (amended): with N resolved from the configuration
(`num_iterations` if present, 100 if absent), a successful `train`
issues exactly one create call and exactly max(N - 1, 0) update calls —
exactly N - 1 whenever N ≥ 1 — and the calls issued are unchanged under
any values of the early-stop flags the update calls return. -/
theorem C1_train_round_count (parameter : JValue) (eng : Engine) (N : Int) (s : String)
    (hres : resolveNumIterations parameter = Except.ok N)
    (henc : encodeParams parameter = Except.ok s)
    (hcreate : eng.createStatus = 0)
    (hupd : ∀ i, eng.updateStatus i = 0) :
    countCall NativeCall.create (train parameter eng).1 = 1 ∧
    countCall NativeCall.update (train parameter eng).1 = (N - 1).toNat ∧
    ∀ f, train parameter (setUpdateFinished eng f) = train parameter eng := by
  have htr := train_all_ok parameter eng N s hres henc hcreate hupd
  refine ⟨?_, ?_, fun f => train_ignores_finished parameter eng f⟩
  · rw [htr]
    simp [countCall, List.count_cons, List.count_replicate]
  · rw [htr]
    simp [countCall, List.count_cons, List.count_replicate]

/-- C1 (witness): with `num_iterations = 3` on an all-success engine,
train issues 1 create call and 2 update calls. -/
theorem C1_train_round_count_witness :
    countCall NativeCall.create (train threeIterConfig engOk).1 = 1 ∧
    countCall NativeCall.update (train threeIterConfig engOk).1 = 2 := by
  have h := C1_train_round_count threeIterConfig engOk 3
    "num_iterations=3 objective=\"binary\"" rfl rfl rfl (fun _ => rfl)
  exact ⟨h.1, h.2.1⟩

/-- C8: when the configuration's `num_iterations` resolves to an integer
N ≤ 1 (including 0 and negatives), a successful `train` still issues the
create call and zero update calls — exactly one boosting round, never
zero. -/
theorem C8_min_one_round (parameter : JValue) (eng : Engine) (N : Int) (s : String)
    (hres : resolveNumIterations parameter = Except.ok N) (hN : N ≤ 1)
    (henc : encodeParams parameter = Except.ok s)
    (hcreate : eng.createStatus = 0) :
    (train parameter eng).1 = [NativeCall.create] ∧
    (train parameter eng).2 = RunOutcome.ok () := by
  have hk : (N - 1).toNat = 0 := by omega
  unfold train
  rw [hres, henc]
  simp only [lgbmCall, hcreate, ite_true, if_true, hk]
  exact ⟨rfl, rfl⟩

/-- C8 (witness): with `num_iterations = 0` on an all-success engine,
train's trace is exactly one create call and the outcome is success. -/
theorem C8_min_one_round_witness :
    (train zeroIterConfig engOk).1 = [NativeCall.create] ∧
    (train zeroIterConfig engOk).2 = RunOutcome.ok () :=
  C8_min_one_round zeroIterConfig engOk 0
    "num_iterations=0 objective=\"binary\"" rfl (by decide) rfl rfl

/-- C4: the claim "the caller receives a typed failure result and never
a crash/panic" fails on the code: with a non-integer `num_iterations`
(here the string "ten"), `as_i64().unwrap()` panics before any native
call instead of returning an `EncodingFailure`. -/
theorem C4_counterexample :
    (train nonIntIterConfig engOk).2 =
      RunOutcome.panicked "called Option::unwrap on a None value" ∧
    (train nonIntIterConfig engOk).1 = [] ∧
    (train nonIntIterConfig engOk).2.isPanicked = true :=
  ⟨by decide, by decide, by decide⟩

/-- C4 (amended): an invalid configuration (non-integer
`num_iterations`, non-object parameter, or a NUL byte in the encoded
parameter text) makes `train` panic before any native call is attempted
— it does not produce a typed `EncodingFailure`; native-call failures,
by contrast, do surface as a typed `NativeCallFailure` result. -/
theorem C4_failure_modes (parameter : JValue) (eng : Engine) :
    (invalidConfig parameter = true →
      (train parameter eng).1 = [] ∧ (train parameter eng).2.isPanicked = true) ∧
    (invalidConfig parameter = false → eng.createStatus ≠ 0 →
      (train parameter eng).1 = [NativeCall.create] ∧
      (train parameter eng).2 = RunOutcome.err (LgbmError.nativeCallFailure eng.lastError)) := by
  constructor
  · intro hinv
    unfold train
    cases hres : resolveNumIterations parameter with
    | error p => exact ⟨rfl, rfl⟩
    | ok n =>
      cases henc : encodeParams parameter with
      | error p => exact ⟨rfl, rfl⟩
      | ok s =>
        exfalso
        unfold invalidConfig at hinv
        rw [hres, henc] at hinv
        simp [exceptIsError] at hinv
  · intro hval hcr
    unfold invalidConfig at hval
    cases hres : resolveNumIterations parameter with
    | error p => rw [hres] at hval; simp [exceptIsError] at hval
    | ok n =>
      cases henc : encodeParams parameter with
      | error p => rw [hres, henc] at hval; simp [exceptIsError] at hval
      | ok s =>
        unfold train
        rw [hres, henc]
        simp only [lgbmCall, if_neg hcr]
        exact ⟨trivial, trivial⟩

/-- C4 (witness): a non-object configuration panics with an empty trace,
and on a valid configuration a failing create call yields a typed
`NativeCallFailure`. -/
theorem C4_failure_modes_witness :
    ((train (JValue.str "x") engOk).1 = [] ∧
      (train (JValue.str "x") engOk).2.isPanicked = true) ∧
    ((train objectiveConfig { engOk with createStatus := 1, lastError := "create failed" }).1 =
        [NativeCall.create] ∧
      (train objectiveConfig { engOk with createStatus := 1, lastError := "create failed" }).2 =
        RunOutcome.err (LgbmError.nativeCallFailure "create failed")) :=
  ⟨(C4_failure_modes (JValue.str "x") engOk).1 (by decide),
    (C4_failure_modes objectiveConfig
      { engOk with createStatus := 1, lastError := "create failed" }).2 (by decide) (by decide)⟩

/-- C5: evaluation of the code at the failing input — create succeeds,
the first update call fails. `train` returns a `NativeCallFailure` and
no Booster, but the trace contains the create call and no free call:
the created handle is leaked, contradicting the claim that a free call
is issued before the error propagates. -/
theorem C5_no_free_on_update_failure :
    (train twoIterConfig engUpdateFail).2 =
      RunOutcome.err (LgbmError.nativeCallFailure "update failed") ∧
    countCall NativeCall.create (train twoIterConfig engUpdateFail).1 = 1 ∧
    countCall NativeCall.update (train twoIterConfig engUpdateFail).1 = 1 ∧
    countCall NativeCall.free (train twoIterConfig engUpdateFail).1 = 0 :=
  ⟨by decide, by decide, by decide, by decide⟩

/-- C6: on the Booster's teardown, exactly one native free call is
issued against its handle, routed through the call-result convention; a
zero status is a clean return, and a nonzero status makes the `unwrap`
panic — a fatal, unrecoverable condition, not logged-and-ignored. -/
theorem C6_drop_frees_once (eng : Engine) :
    (boosterDrop eng).1 = [NativeCall.free] ∧
    countCall NativeCall.free (boosterDrop eng).1 = 1 ∧
    (eng.freeStatus = 0 → (boosterDrop eng).2 = RunOutcome.ok ()) ∧
    (eng.freeStatus ≠ 0 →
      (boosterDrop eng).2 =
        RunOutcome.panicked ("called Result::unwrap on an Err value: " ++ eng.lastError)) := by
  refine ⟨?_, ?_, ?_, ?_⟩
  · unfold boosterDrop
    cases lgbmCall eng.freeStatus eng.lastError with
    | error e => cases e <;> rfl
    | ok u => rfl
  · unfold boosterDrop
    cases lgbmCall eng.freeStatus eng.lastError with
    | error e => cases e <;> rfl
    | ok u => rfl
  · intro h0
    unfold boosterDrop
    simp only [lgbmCall, h0, ite_true, if_true]
  · intro hne
    unfold boosterDrop
    simp only [lgbmCall, if_neg hne]

/-- C6 (witness): on an engine whose free call fails, teardown issues
the single free call and panics with the native diagnostic. -/
theorem C6_drop_frees_once_witness :
    (boosterDrop engFreeFail).1 = [NativeCall.free] ∧
    (boosterDrop engFreeFail).2 =
      RunOutcome.panicked ("called Result::unwrap on an Err value: " ++ "free failed") :=
  ⟨(C6_drop_frees_once engFreeFail).1,
    (C6_drop_frees_once engFreeFail).2.2.2 (by decide)⟩

/-- C9: `predict` called with `num_features = 0` panics on the
division `data.len() as i32 / ncol` — for any input length — and issues
no native call; it never returns a typed failure result. -/
theorem C9_predict_zero_features_panics (dataLen : Nat) (eng : Engine) :
    predict dataLen 0 eng = ([], RunOutcome.panicked "attempt to divide by zero") := rfl

/-- C10: for any path string containing a NUL byte, `from_file` and
`save_file` panic in `CString::new(..).unwrap()` before any native call
is attempted; no typed failure result is returned. -/
theorem C10_nul_path_panics (path : String) (eng : Engine)
    (h : hasNulByte path = true) :
    from_file path eng = ([], RunOutcome.panicked "nul byte found in provided data") ∧
    save_file path eng = ([], RunOutcome.panicked "nul byte found in provided data") := by
  unfold from_file save_file
  rw [h]
  exact ⟨if_pos rfl, if_pos rfl⟩

/-- C10 (witness): the path "a\x00b", whose NUL byte is interior, makes
both `from_file` and `save_file` panic with an empty native-call trace. -/
theorem C10_nul_path_panics_witness :
    from_file ("a" ++ String.singleton (Char.ofNat 0) ++ "b") engOk =
      ([], RunOutcome.panicked "nul byte found in provided data") ∧
    save_file ("a" ++ String.singleton (Char.ofNat 0) ++ "b") engOk =
      ([], RunOutcome.panicked "nul byte found in provided data") :=
  C10_nul_path_panics ("a" ++ String.singleton (Char.ofNat 0) ++ "b") engOk (by decide)

-- The `as i32` cast is the identity on values already in i32 range.
theorem wrap32_self (i : Int) (h1 : -(2 ^ 31) ≤ i) (h2 : i < 2 ^ 31) : wrap32 i = i := by
  unfold wrap32
  rw [Int.emod_eq_of_lt (by omega) (by omega)]
  omega

-- Sign-extension to usize is the identity on small natural numbers.
theorem usizeOfI32_natCast (n : Nat) (h : (n : Int) < 2 ^ 64) :
    usizeOfI32 (n : Int) = n := by
  unfold usizeOfI32
  rw [Int.emod_eq_of_lt (by positivity) h]
  simp

-- Truncating division of two casts of naturals is the cast of natural
-- division.
theorem tdiv_natCast (a c : Nat) : Int.tdiv (a : Int) (c : Int) = ((a / c : Nat) : Int) := rfl

/-- C2: on an engine whose class query and predict call succeed,
`predict` on an input of length `len` with `ncol > 0` features returns a
result of length exactly `floor(len / ncol) * num_class` — the row
count is derived by truncating division, silently dropping a partial
trailing row. -/
theorem C2_predict_length (dataLen : Nat) (ncol : Int) (eng : Engine)
    (hlen : dataLen < 2 ^ 31) (hncol : 0 < ncol)
    (hnc : 0 ≤ eng.numClasses)
    (hbuf : dataLen / ncol.toNat * eng.numClasses.toNat < 2 ^ 31)
    (hs1 : eng.getNumClassesStatus = 0) (hs2 : eng.predictStatus = 0) :
    ∃ out, (predict dataLen ncol eng).2 = RunOutcome.ok out ∧
      out.length = dataLen / ncol.toNat * eng.numClasses.toNat := by
  have hn0 : ¬(ncol = 0) := by omega
  have hw : wrap32 ((dataLen : Nat) : Int) = (dataLen : Int) :=
    wrap32_self _ (by omega) (by omega)
  have hcol2 : ((ncol.toNat : Nat) : Int) = ncol := Int.toNat_of_nonneg (le_of_lt hncol)
  have hnc2 : ((eng.numClasses.toNat : Nat) : Int) = eng.numClasses := Int.toNat_of_nonneg hnc
  have hdiv : Int.tdiv (dataLen : Int) ncol = ((dataLen / ncol.toNat : Nat) : Int) := by
    rw [← hcol2]
    exact tdiv_natCast dataLen ncol.toNat
  have hmul : Int.tdiv (dataLen : Int) ncol * eng.numClasses =
      ((dataLen / ncol.toNat * eng.numClasses.toNat : Nat) : Int) := by
    rw [hdiv, Nat.cast_mul, hnc2]
  have hwm : wrap32 (Int.tdiv (dataLen : Int) ncol * eng.numClasses) =
      ((dataLen / ncol.toNat * eng.numClasses.toNat : Nat) : Int) := by
    rw [hmul]
    exact wrap32_self _ (by omega) (by omega)
  have hus : usizeOfI32 ((dataLen / ncol.toNat * eng.numClasses.toNat : Nat) : Int) =
      dataLen / ncol.toNat * eng.numClasses.toNat := by
    apply usizeOfI32_natCast
    omega
  have hnotOvf : ¬((dataLen : Int) = -(2 ^ 31) ∧ ncol = -1) := by
    rintro ⟨h1, h2⟩
    omega
  have hg1 : lgbmCall eng.getNumClassesStatus eng.lastError = Except.ok () := by
    unfold lgbmCall
    rw [if_pos hs1]
  have hg2 : lgbmCall eng.predictStatus eng.lastError = Except.ok () := by
    unfold lgbmCall
    rw [if_pos hs2]
  refine ⟨(List.range (dataLen / ncol.toNat * eng.numClasses.toNat)).map eng.predictValue,
    ?_, by simp⟩
  simp only [predict, if_neg hn0, if_neg hnotOvf, hg1, hg2, hw, hwm, hus]

/-- C2 (witness): length 28·2500+5 with 28 columns on a one-class
engine yields 2500 scores — 2500 rows, not 2501. -/
theorem C2_predict_length_witness :
    ∃ out, (predict 70005 28 engOk).2 = RunOutcome.ok out ∧ out.length = 2500 := by
  obtain ⟨out, h1, h2⟩ := C2_predict_length 70005 28 engOk (by decide) (by decide)
    (by decide) (by decide) rfl rfl
  exact ⟨out, h1, by rw [h2]; rfl⟩

-- takeWhile is strictly shorter than the list when some element fails
-- the predicate.
theorem length_takeWhile_lt_of_exists {α : Type} (p : α → Bool) :
    ∀ (l : List α), (∃ x, x ∈ l ∧ p x = false) → (l.takeWhile p).length < l.length := by
  intro l
  induction l with
  | nil =>
    rintro ⟨x, hx, _⟩
    cases hx
  | cons a t ih =>
    rintro ⟨x, hx, hpx⟩
    by_cases hpa : p a = true
    · rw [List.takeWhile_cons_of_pos hpa]
      simp only [List.length_cons, Nat.add_lt_add_iff_right]
      apply ih
      rcases List.mem_cons.mp hx with h | h
      · exfalso
        rw [h] at hpx
        rw [hpx] at hpa
        exact Bool.noConfusion hpa
      · exact ⟨x, h, hpx⟩
    · rw [List.takeWhile_cons_of_neg (by simpa using hpa)]
      simp

-- An element appended at the end survives any drop that stays within
-- the prefix.
theorem mem_drop_append_singleton {α : Type} (x : α) :
    ∀ (k : Nat) (a : List α), k ≤ a.length → x ∈ (a ++ [x]).drop k := by
  intro k
  induction k with
  | zero =>
    intro a h
    simp
  | succ n ih =>
    intro a h
    cases a with
    | nil => simp at h
    | cons b t =>
      have := ih t (by simpa using h)
      simpa using this

-- A name read back from a 32-character slot is at most 32 characters
-- long, provided the native engine wrote within the slot's capacity.
theorem cToString_fillSlot_length_le (w : List Char) (hw : w.length ≤ 32) :
    (cToString (fillSlot w featureNameSlot)).length ≤ 32 := by
  have hslot : featureNameSlot.length = 33 := by
    simp [featureNameSlot]
  have hlenfull : (w ++ featureNameSlot.drop w.length).length = 33 := by
    rw [List.length_append, List.length_drop, hslot]
    omega
  have hfill : fillSlot w featureNameSlot = w ++ featureNameSlot.drop w.length := by
    unfold fillSlot
    rw [hslot]
    exact List.take_of_length_le (le_of_eq hlenfull)
  have hmem : Char.ofNat 0 ∈ fillSlot w featureNameSlot := by
    rw [hfill]
    apply List.mem_append_right
    unfold featureNameSlot
    exact mem_drop_append_singleton (Char.ofNat 0) w.length (List.replicate 32 (Char.ofNat 32))
      (by simpa using hw)
  have hlt := length_takeWhile_lt_of_exists (fun c => decide (c ≠ Char.ofNat 0))
    (fillSlot w featureNameSlot) ⟨Char.ofNat 0, hmem, by simp⟩
  have hfl : (fillSlot w featureNameSlot).length = 33 := by
    rw [hfill]
    exact hlenfull
  unfold cToString
  rw [String.length_mk]
  omega

/-- C7: when the feature-count query and the get-feature-names call
succeed, `feature_name()` returns exactly as many entries as
`num_feature()` reports, each entry being the 32-character slot's
contents trimmed at the native NUL terminator, hence at most 32
characters long. -/
theorem C7_feature_name_entries (eng : Engine)
    (h1 : eng.getNumFeatureStatus = 0) (h2 : eng.featureNamesStatus = 0)
    (hnf : 0 ≤ eng.numFeature)
    (hbytes : ∀ i, i < eng.numFeature.toNat → (eng.featureNameBytes i).length ≤ 32) :
    ∃ names, (feature_name eng).2 = RunOutcome.ok names ∧
      (names.length : Int) = eng.numFeature ∧
      (num_feature eng).2 = RunOutcome.ok eng.numFeature ∧
      (∀ i, ∀ hi : i < names.length,
        names.get ⟨i, hi⟩ = cToString (fillSlot (eng.featureNameBytes i) featureNameSlot)) ∧
      (∀ i, ∀ hi : i < names.length, (names.get ⟨i, hi⟩).length ≤ 32) := by
  have hg1 : lgbmCall eng.getNumFeatureStatus eng.lastError = Except.ok () := by
    unfold lgbmCall
    rw [if_pos h1]
  have hg2 : lgbmCall eng.featureNamesStatus eng.lastError = Except.ok () := by
    unfold lgbmCall
    rw [if_pos h2]
  have hgeteq : ∀ i, ∀ hi : i < ((List.range eng.numFeature.toNat).map
      (fun i => cToString (fillSlot (eng.featureNameBytes i) featureNameSlot))).length,
      ((List.range eng.numFeature.toNat).map
        (fun i => cToString (fillSlot (eng.featureNameBytes i) featureNameSlot))).get ⟨i, hi⟩ =
        cToString (fillSlot (eng.featureNameBytes i) featureNameSlot) := by
    intro i hi
    simp
  refine ⟨(List.range eng.numFeature.toNat).map
    (fun i => cToString (fillSlot (eng.featureNameBytes i) featureNameSlot)),
    ?_, ?_, ?_, hgeteq, ?_⟩
  · simp only [feature_name, hg1, hg2]
  · simp [Int.toNat_of_nonneg hnf]
  · simp only [num_feature, hg1]
  · intro i hi
    rw [hgeteq i hi]
    apply cToString_fillSlot_length_le
    apply hbytes
    simpa using hi

/-- C7 (witness): on an engine reporting two features named Column_0 and
Column_1, `feature_name` succeeds with exactly the two trimmed names. -/
theorem C7_feature_name_entries_witness :
    (∃ names, (feature_name engOk).2 = RunOutcome.ok names ∧
      (names.length : Int) = engOk.numFeature ∧
      (num_feature engOk).2 = RunOutcome.ok engOk.numFeature ∧
      (∀ i, ∀ hi : i < names.length,
        names.get ⟨i, hi⟩ =
          cToString (fillSlot (engOk.featureNameBytes i) featureNameSlot)) ∧
      (∀ i, ∀ hi : i < names.length, (names.get ⟨i, hi⟩).length ≤ 32)) ∧
    (feature_name engOk).2 = RunOutcome.ok ["Column_0", "Column_1"] :=
  ⟨C7_feature_name_entries engOk rfl rfl (by decide) (by decide), by decide⟩

-- String append is associative (via the underlying character lists).
theorem string_append_assoc (a b c : String) : a ++ b ++ c = a ++ (b ++ c) := by
  apply String.ext
  simp only [String.data_append, List.append_assoc]

-- NUL-detection distributes over append.
theorem hasNulByte_append (a b : String) :
    hasNulByte (a ++ b) = (hasNulByte a || hasNulByte b) := by
  unfold hasNulByte
  simp [String.data_append]

-- A string none of whose characters is NUL has no NUL byte.
theorem hasNulByte_eq_false_of (s : String) (h : ∀ c ∈ s.data, c ≠ Char.ofNat 0) :
    hasNulByte s = false := by
  unfold hasNulByte
  rw [List.any_eq_false]
  intro c hc
  simpa using h c hc

-- Joining NUL-free strings with spaces stays NUL-free.
theorem hasNulByte_joinSpace : ∀ (l : List String),
    (∀ x ∈ l, hasNulByte x = false) → hasNulByte (joinSpace l) = false := by
  intro l
  induction l with
  | nil => intro h; rfl
  | cons x xs ih =>
    intro h
    cases xs with
    | nil => exact h x (List.mem_cons_self x [])
    | cons y ys =>
      have hx := h x (List.mem_cons_self x (y :: ys))
      have hrest := ih (fun z hz => h z (List.mem_cons_of_mem x hz))
      show hasNulByte (x ++ " " ++ joinSpace (y :: ys)) = false
      rw [hasNulByte_append, hasNulByte_append, hx, hrest]
      rfl

-- serde_json's escaping is the identity on printable characters other
-- than the quote and the backslash.
theorem escapeChar_clean (c : Char) (h32 : 32 ≤ c.toNat)
    (hq : c ≠ Char.ofNat 34) (hb : c ≠ Char.ofNat 92) :
    escapeChar c = String.singleton c := by
  have h8 : c ≠ Char.ofNat 8 := fun h => by rw [h] at h32; exact absurd h32 (by decide)
  have h9 : c ≠ Char.ofNat 9 := fun h => by rw [h] at h32; exact absurd h32 (by decide)
  have h10 : c ≠ Char.ofNat 10 := fun h => by rw [h] at h32; exact absurd h32 (by decide)
  have h12 : c ≠ Char.ofNat 12 := fun h => by rw [h] at h32; exact absurd h32 (by decide)
  have h13 : c ≠ Char.ofNat 13 := fun h => by rw [h] at h32; exact absurd h32 (by decide)
  have hlt : ¬(c.toNat < 32) := by omega
  unfold escapeChar
  rw [if_neg hq, if_neg hb, if_neg h8, if_neg h9, if_neg h10, if_neg h12, if_neg h13, if_neg hlt]

-- Escaping a list of characters that each escape to themselves
-- reproduces the original string.
theorem escapeChars_clean : ∀ (l : List Char),
    (∀ c ∈ l, escapeChar c = String.singleton c) → escapeChars l = String.mk l := by
  intro l
  induction l with
  | nil => intro h; rfl
  | cons c cs ih =>
    intro h
    have hc := h c (List.mem_cons_self c cs)
    have hcs := ih (fun x hx => h x (List.mem_cons_of_mem c hx))
    show escapeChar c ++ escapeChars cs = String.mk (c :: cs)
    rw [hc, hcs]
    apply String.ext
    simp [String.singleton]

-- Rendering a clean string is just wrapping it in quotes.
theorem renderString_clean (s : String)
    (h : ∀ c ∈ s.data, 32 ≤ c.toNat ∧ c ≠ Char.ofNat 34 ∧ c ≠ Char.ofNat 92) :
    renderString s = "\"" ++ s ++ "\"" := by
  unfold renderString
  rw [escapeChars_clean s.data
    (fun c hc => escapeChar_clean c (h c hc).1 (h c hc).2.1 (h c hc).2.2)]

/-- C3: the claim that a text value `binary` for key `objective` is
encoded as the token `objective=binary` with no extra characters around
the value is false: serde_json's `Display` serializes the value as JSON,
so the encoded token is `objective="binary"` — with quote characters
around the value. -/
theorem C3_counterexample :
    encodeParams objectiveConfig = Except.ok "objective=\"binary\"" ∧
    "objective=\"binary\"" ≠ "objective=binary" :=
  ⟨rfl, by decide⟩

/-- C3 (amended): the encoded parameter string is the `name=value`
pairs joined with single spaces, one pair per entry, but each value is
rendered as its compact JSON serialization — so a text value appears
surrounded by double quotes (integers and other scalars print plainly). -/
theorem C3_param_encoding (fields : List (String × String))
    (hkeys : ∀ p ∈ fields, ∀ c ∈ p.1.data, c ≠ Char.ofNat 0)
    (hvals : ∀ p ∈ fields, ∀ c ∈ p.2.data,
      32 ≤ c.toNat ∧ c ≠ Char.ofNat 34 ∧ c ≠ Char.ofNat 92) :
    encodeParams (JValue.obj (fields.map (fun p => (p.1, JValue.str p.2)))) =
      Except.ok (joinSpace (fields.map (fun p => p.1 ++ "=" ++ "\"" ++ p.2 ++ "\""))) := by
  have hmap : (fields.map (fun p => (p.1, JValue.str p.2))).map
      (fun kv => kv.1 ++ "=" ++ renderValue kv.2) =
      fields.map (fun p => p.1 ++ "=" ++ "\"" ++ p.2 ++ "\"") := by
    rw [List.map_map]
    apply List.map_congr_left
    intro p hp
    show p.1 ++ "=" ++ renderValue (JValue.str p.2) = p.1 ++ "=" ++ "\"" ++ p.2 ++ "\""
    rw [show renderValue (JValue.str p.2) = renderString p.2 from rfl]
    rw [renderString_clean p.2 (hvals p hp)]
    simp only [string_append_assoc]
  have htok : ∀ x ∈ fields.map (fun p => p.1 ++ "=" ++ "\"" ++ p.2 ++ "\""),
      hasNulByte x = false := by
    intro x hx
    rcases List.mem_map.mp hx with ⟨p, hp, rfl⟩
    have h1 : hasNulByte p.1 = false := hasNulByte_eq_false_of p.1 (hkeys p hp)
    have h2 : hasNulByte p.2 = false := by
      apply hasNulByte_eq_false_of
      intro c hc
      have := (hvals p hp c hc).1
      intro hEq
      rw [hEq] at this
      exact absurd this (by decide)
    simp only [hasNulByte_append, h1, h2]
    decide
  have hnul : hasNulByte (joinSpace (fields.map
      (fun p => p.1 ++ "=" ++ "\"" ++ p.2 ++ "\""))) = false :=
    hasNulByte_joinSpace _ htok
  unfold encodeParams
  simp only [hmap, hnul]
  simp

/-- C3 (witness): the single-entry map from `objective` to the text
`binary` encodes to the exact token `objective="binary"`. -/
theorem C3_param_encoding_witness :
    encodeParams (JValue.obj [("objective", JValue.str "binary")]) =
      Except.ok "objective=\"binary\"" :=
  C3_param_encoding [("objective", "binary")] (by decide) (by decide)

end LightGBM
